import Mathlib

/-
Verification of the LINE shift-notification application (app.py).

Shallow embedding notes:
* Python strings are modelled as Lean `String`; `str.lower()` is modelled by
  ASCII lowercasing (`asciiLower`), which agrees with Python's Unicode
  lowercasing on every string occurring here (ASCII letters and Japanese
  characters, which have no case).
* `needle in haystack` (Python substring test) is modelled by `pyContains`.
* The sqlite database is modelled as explicit lists of rows; AUTOINCREMENT ids
  are modelled by a next-id counter.  `CURRENT_TIMESTAMP` is nondecreasing
  across inserts, so recency order (`ORDER BY timestamp DESC`) coincides with
  id order, which is how it is modelled.
* The LINE push endpoint (`send_line_message`) is modelled as an opaque
  `gateway : String → String → Bool` parameter (user id, body ↦ success);
  the Gemini collaborator (`generate_ai_response`) as `ai : String → String`.
* pandas `groupby('employee_name')` yields one group per distinct name
  (sorted by key); group enumeration order does not affect any property
  proved below, and groups are enumerated here in `List.dedup` order.
-/

/-! Spreadsheet ingestion (`validate_excel_data`, `upload_file`). -/

/-! Database model: users Directory, Conversation Log, Shift Confirmation
Ledger (schema of `init_db`, app.py lines 61-91). -/

namespace ShiftApp

/-- ASCII lowercasing of a character, the fragment of Python `str.lower()`
exercised by the program (all keywords are ASCII or caseless Japanese). -/
def lowerChar (c : Char) : Char :=
  if 'A' ≤ c ∧ c ≤ 'Z' then Char.ofNat (c.toNat + 32) else c

/-- ASCII lowercasing of a string, modelling Python `str.lower()`. -/
def asciiLower (s : String) : String := String.mk (s.toList.map lowerChar)

/-- Substring test on character lists, modelling Python `needle in hay`. -/
def listIsSubstr (needle : List Char) : List Char → Bool
  | [] => needle.isEmpty
  | c :: rest => List.isPrefixOf needle (c :: rest) || listIsSubstr needle rest

/-- Python `needle in hay` on strings. -/
def pyContains (hay needle : String) : Bool :=
  listIsSubstr needle.toList hay.toList

/-- Keyword list of `is_schedule_change_request` (app.py lines 249-252). -/
def change_keywords : List String :=
  ["変更", "修正", "update", "change", "シフト変更",
   "休み", "代わって", "代行", "入れ替え"]

/-- app.py `is_schedule_change_request`: any change keyword occurs in the
lowercased message. -/
def is_schedule_change_request (message : String) : Bool :=
  change_keywords.any (fun k => pyContains (asciiLower message) k)

/-- Keyword list of `is_shift_inquiry` (app.py lines 257-260). -/
def inquiry_keywords : List String :=
  ["シフトは", "今週のシフト", "来週のシフト", "今日のシフト", "明日のシフト",
   "shift", "schedule", "勤務", "出勤", "何時から", "いつ"]

/-- app.py `is_shift_inquiry`. -/
def is_shift_inquiry (message : String) : Bool :=
  inquiry_keywords.any (fun k => pyContains (asciiLower message) k)

/-- Keyword list of `is_shift_confirmation` (app.py lines 265-268). -/
def confirmation_keywords : List String :=
  ["確認", "確認しました", "了解", "わかりました", "承知しました",
   "confirm", "acknowledged", "understood", "roger", "ok"]

/-- app.py `is_shift_confirmation`. -/
def is_shift_confirmation (message : String) : Bool :=
  confirmation_keywords.any (fun k => pyContains (asciiLower message) k)

/-- One shift row as handed to `/send_messages` (a JSON record validated to
contain the four required keys; `place` is `none` when the key is absent or
its value is null, matching the guard `'place' in row and pd.notna(row['place'])`). -/
structure ShiftRow where
  employee_name : String
  shift_date : String
  start_time : String
  end_time : String
  place : Option String
deriving DecidableEq

/-- Suffix appended for the optional `place` field (app.py lines 568-569). -/
def placeSuffix : Option String → String
  | some p => " " ++ p
  | none => ""

/-- Formatting of one shift line in `send_messages` (app.py lines 561-569).
Python truthiness of a string is non-emptiness, so the first branch fires
exactly when both `start_time` and `end_time` are non-empty — also when
`start_time` is the attendance marker. -/
def formatShiftLine (r : ShiftRow) : String :=
  let shift_info := "日付: " ++ r.shift_date
  let shift_info :=
    if r.start_time ≠ "" ∧ r.end_time ≠ "" then
      shift_info ++ ", " ++ r.start_time ++ " - " ++ r.end_time
    else if r.start_time = "出勤" then
      shift_info ++ ", 時間: " ++ r.start_time
    else shift_info
  shift_info ++ placeSuffix r.place

/-- The per-employee message body built in `send_messages`
(app.py lines 558-573). -/
def buildMessage (name : String) (shifts : List ShiftRow) : String :=
  name ++ "さん、以下のシフトが予定されています：\n\n" ++
  String.join (shifts.map (fun r => "- " ++ formatShiftLine r ++ "\n")) ++
  "\n 宜しくおねがいします"

/-- The error string recorded for a Directory lookup miss (app.py line 551). -/
def notFoundMsg (name : String) : String :=
  "User '" ++ name ++ "' not found in database"

/-- Python `if not line_user_id`: the lookup missed, or returned an empty id. -/
def isMiss (registered : List (String × String)) (name : String) : Bool :=
  match registered.lookup name with
  | none => true
  | some uid => uid == ""

/-- The user id a resolved name is sent to. -/
def resolvedUid (registered : List (String × String)) (name : String) : String :=
  (registered.lookup name).getD ""

/-- The (recipient id, body) pair pushed for a resolved name. -/
def pushOf (registered : List (String × String)) (rows : List ShiftRow)
    (name : String) : String × String :=
  (resolvedUid registered name,
   buildMessage name (rows.filter (fun r => r.employee_name == name)))

/-- Running tallies of the dispatch loop; `pushes` records every gateway call
actually attempted, in order. -/
structure SendOutcome where
  successful_sends : Nat
  failed_sends : Nat
  errors : List String
  pushes : List (String × String)
deriving DecidableEq

/-- The dispatch loop of `send_messages` (app.py lines 547-583), processing one
group per distinct employee name: a lookup miss counts one failed send and
records an error string; otherwise the message is built and pushed once, the
gateway result deciding which tally is incremented (a gateway failure appends
no error string — app.py line 583 is commented out). -/
def sendLoop (registered : List (String × String)) (gateway : String → String → Bool)
    (rows : List ShiftRow) : List String → SendOutcome
  | [] => ⟨0, 0, [], []⟩
  | name :: rest =>
    let tail := sendLoop registered gateway rows rest
    if isMiss registered name then
      { successful_sends := tail.successful_sends
        failed_sends := tail.failed_sends + 1
        errors := notFoundMsg name :: tail.errors
        pushes := tail.pushes }
    else
      let p := pushOf registered rows name
      if gateway p.1 p.2 then
        { successful_sends := tail.successful_sends + 1
          failed_sends := tail.failed_sends
          errors := tail.errors
          pushes := p :: tail.pushes }
      else
        { successful_sends := tail.successful_sends
          failed_sends := tail.failed_sends + 1
          errors := tail.errors
          pushes := p :: tail.pushes }

/-- The distinct employee names of the submitted rows (the group keys of
`df.groupby('employee_name')`). -/
def distinctNames (rows : List ShiftRow) : List String :=
  (rows.map (fun r => r.employee_name)).dedup

/-- The JSON response of `/send_messages`: its `status` field, the tallies
reported in its message, the (at most 5) retained error strings, and the
gateway pushes performed while serving it. -/
structure SendResult where
  status : String
  successful_sends : Nat
  failed_sends : Nat
  errors : List String
  pushes : List (String × String)
deriving DecidableEq

/-- app.py `send_messages` (lines 512-608) on an already key-validated row
list: empty data is rejected, then the dispatch loop runs over the groups and
the response status is `success` when nothing failed, `error` when nothing
succeeded, else `warning`; the success response carries no error list, the
other two retain at most 5 error strings. -/
def send_messages (registered : List (String × String))
    (gateway : String → String → Bool) (rows : List ShiftRow) : SendResult :=
  if rows.isEmpty then ⟨"error", 0, 0, [], []⟩
  else
    let o := sendLoop registered gateway rows (distinctNames rows)
    if o.failed_sends = 0 then
      ⟨"success", o.successful_sends, o.failed_sends, [], o.pushes⟩
    else if o.successful_sends = 0 then
      ⟨"error", o.successful_sends, o.failed_sends, o.errors.take 5, o.pushes⟩
    else
      ⟨"warning", o.successful_sends, o.failed_sends, o.errors.take 5, o.pushes⟩

/-- Required spreadsheet columns (app.py line 97). -/
def required_columns : List String :=
  ["employee_name", "shift_date", "start_time", "end_time"]

/-- Allowed upload extensions (app.py line 53). -/
def ALLOWED_EXTENSIONS : List String := ["xlsx", "xls"]

/-- app.py `allowed_file`: the name contains a dot and the lowercased part
after the last dot (`rsplit('.', 1)[1]`) is an allowed extension. -/
def allowed_file (filename : String) : Bool :=
  filename.toList.contains '.' &&
    ALLOWED_EXTENSIONS.contains
      (asciiLower (String.mk
        ((filename.toList.reverse.takeWhile (fun c => c ≠ '.')).reverse)))

/-- A parsed spreadsheet: column names, and for each row the cell values in
column order (`none` is a pandas null/NaN). -/
structure DataFrame where
  columns : List String
  rows : List (List (Option String))
deriving DecidableEq

/-- Position of a column name in the column list (leftmost match). -/
def colIndex (cols : List String) (c : String) : Option Nat :=
  match cols with
  | [] => none
  | c' :: rest => if c' == c then some 0 else (colIndex rest c).map (fun i => i + 1)

/-- Access `row[c]` on a row dict produced by `df.to_dict('records')`: a
missing column raises `KeyError` (modelled as `.error` carrying the Python
`KeyError` rendering), a present column yields its possibly-null value. -/
def getKey (df : DataFrame) (row : List (Option String)) (c : String) :
    Except String (Option String) :=
  match colIndex df.columns c with
  | some i => .ok ((row.get? i).getD none)
  | none => .error ("'" ++ c ++ "'")

/-- Whether a row has a null in one of `cols`
(`df[cols].isnull().any(axis=1)` for one row); only evaluated after the
missing-column check, so absent columns do not occur. -/
def rowHasNull (df : DataFrame) (cols : List String)
    (row : List (Option String)) : Bool :=
  cols.any fun c =>
    match getKey df row c with
    | .ok v => v.isNone
    | .error _ => false

/-- The required columns absent from the frame, in required order
(app.py line 100). -/
def missingColumns (df : DataFrame) : List String :=
  required_columns.filter (fun c => !df.columns.contains c)

/-- Python `', '.join`. -/
def joinComma : List String → String
  | [] => ""
  | [c] => c
  | c :: rest => c ++ ", " ++ joinComma rest

/-- app.py `validate_excel_data` (lines 98-111): report missing required
columns; otherwise reject the whole frame as soon as any row has a null in a
required column. -/
def validate_excel_data (df : DataFrame) : Bool × String :=
  if missingColumns df ≠ [] then
    (false, "Missing required columns: " ++ joinComma (missingColumns df))
  else if df.rows.any (fun r => rowHasNull df required_columns r) then
    (false, "Some rows have missing data")
  else (true, "Valid data structure")

/-- Python `str(v)` on a cell value: a null renders as `nan`. -/
def pystr : Option String → String
  | some s => s
  | none => "nan"

/-- Python `str(v).split(' ')[0]`: the prefix before the first space. -/
def splitSpaceHead (s : String) : String :=
  String.mk (s.toList.takeWhile (fun c => c ≠ ' '))

/-- One entry of the success preview of `/upload` (app.py lines 492-500). -/
structure PreviewRow where
  employee_name : String
  line_user_id : String
  shift_date : String
  start_time : String
  end_time : String
deriving DecidableEq

/-- Building one preview record (app.py lines 493-499); the dict accesses are
evaluated in source order, and a missing column raises `KeyError`. -/
def previewOfRow (df : DataFrame) (row : List (Option String)) :
    Except String PreviewRow :=
  match getKey df row "employee_name" with
  | .error e => .error e
  | .ok en =>
    match getKey df row "line_user_id" with
    | .error e => .error e
    | .ok lu =>
      match getKey df row "shift_date" with
      | .error e => .error e
      | .ok sd =>
        match getKey df row "start_time" with
        | .error e => .error e
        | .ok st =>
          match getKey df row "end_time" with
          | .error e => .error e
          | .ok et =>
            .ok ⟨pystr en, pystr lu, splitSpaceHead (pystr sd), pystr st, pystr et⟩

/-- Left-to-right evaluation of the preview list comprehension, stopping at
the first raised `KeyError`. -/
def mapExcept {α β ε : Type} (f : α → Except ε β) : List α → Except ε (List β)
  | [] => .ok []
  | a :: l =>
    match f a with
    | .error e => .error e
    | .ok b =>
      match mapExcept f l with
      | .error e => .error e
      | .ok bs => .ok (b :: bs)

/-- Result of the `/upload` endpoint. -/
inductive UploadResult
  | err (msg : String)
  | ok (preview : List PreviewRow)
deriving DecidableEq

/-- app.py `upload_file` (lines 464-510) after a successful `pd.read_excel`:
extension check, structural validation, `dropna` over the required columns,
empty check, then preview construction — whose `KeyError` is caught by the
surrounding `except`, producing an error response. -/
def upload_file (filename : String) (df : DataFrame) : UploadResult :=
  if filename = "" then .err "No file selected"
  else if !allowed_file filename then
    .err "Invalid file type. Please upload .xlsx or .xls files only."
  else
    match validate_excel_data df with
    | (false, msg) => .err msg
    | (true, _) =>
      let surviving := df.rows.filter (fun r => !rowHasNull df required_columns r)
      if surviving.isEmpty then .err "No valid data found in the uploaded file"
      else
        match mapExcept (previewOfRow df) surviving with
        | .error e => .err ("Error processing file: " ++ e)
        | .ok preview => .ok preview

/-- One row of the `conversations` table. -/
structure ConvRow where
  id : Nat
  user_id : String
  role : String
  message : String
deriving DecidableEq

/-- One row of the `shift_confirmations` table. -/
structure ConfRow where
  id : Nat
  user_id : String
  employee_name : String
  week_start : String
  status : String
deriving DecidableEq

/-- The sqlite database: `users` as (line_user_id, employee_name) pairs in
insertion order, the two AUTOINCREMENT tables with their next row ids. -/
structure DB where
  users : List (String × String)
  convRows : List ConvRow
  nextConvId : Nat
  confRows : List ConfRow
  nextConfId : Nat
deriving DecidableEq

/-- A fresh database (AUTOINCREMENT starts at 1). -/
def emptyDB : DB := ⟨[], [], 1, [], 1⟩

/-- The last `n` elements of a list. -/
def lastN {α : Type} (n : Nat) (l : List α) : List α := l.drop (l.length - n)

/-- The ids retained by the pruning subquery
`SELECT id FROM conversations WHERE user_id = ? ORDER BY timestamp DESC
LIMIT 20`: timestamps are `CURRENT_TIMESTAMP` at insertion, hence
nondecreasing with the AUTOINCREMENT id, so the 20 most recent rows of a user
are the last 20 of that user's rows in storage order. -/
def keptIds (rows : List ConvRow) (uid : String) : List Nat :=
  lastN 20 ((rows.filter (fun r => r.user_id == uid)).map (fun r => r.id))

/-- The conversation-table effect of `store_conversation` (app.py lines
372-396): insert the message, then delete this user's rows whose id is not
among the 20 most recent. -/
def convStep (rows : List ConvRow) (next : Nat) (uid role msg : String) :
    List ConvRow × Nat :=
  let inserted := rows ++ [⟨next, uid, role, msg⟩]
  (inserted.filter
     (fun r => !(r.user_id == uid) || decide (r.id ∈ keptIds inserted uid)),
   next + 1)

/-- app.py `store_conversation` on the whole database. -/
def store_conversation (db : DB) (uid role msg : String) : DB :=
  { db with
    convRows := (convStep db.convRows db.nextConvId uid role msg).1,
    nextConvId := (convStep db.convRows db.nextConvId uid role msg).2 }

/-- Reply when the week is already confirmed (app.py line 293). -/
def alreadyConfirmedMsg : String := "この週のシフトは既に確認済みです。"

/-- Reply when a confirmation is recorded (app.py line 307). -/
def confirmationRecordedMsg (user_name : String) : String :=
  user_name ++ "さんの今週のシフト確認が完了しました。"

/-- app.py `record_shift_confirmation` (lines 271-311): `weekStart` is the
Monday of the current ISO week, computed from `datetime.now()` and passed
here as a parameter; the manager notification has no database effect. -/
def record_shift_confirmation (db : DB) (weekStart uid user_name : String) :
    DB × Bool × String :=
  if db.confRows.any (fun c =>
      c.user_id == uid && c.week_start == weekStart && c.status == "confirmed") then
    (db, false, alreadyConfirmedMsg)
  else
    ({ db with
       confRows := db.confRows ++
         [⟨db.nextConfId, uid, user_name, weekStart, "confirmed"⟩],
       nextConfId := db.nextConfId + 1 },
     true, confirmationRecordedMsg user_name)

/-- Python `str.strip()`. -/
def pyStrip (s : String) : String :=
  String.mk
    (((s.toList.dropWhile Char.isWhitespace).reverse.dropWhile
        Char.isWhitespace).reverse)

/-- Python `re.sub(r'\s+', '', s)`: all whitespace removed. -/
def removeWhitespace (s : String) : String :=
  String.mk (s.toList.filter (fun c => !c.isWhitespace))

/-- Character class of the name regex
`^[a-zA-Zぁ-ゖァ-ヾ一-龯\s]+$` (app.py line 221). -/
def isAllowedNameChar (c : Char) : Bool :=
  decide ((0x61 ≤ c.toNat ∧ c.toNat ≤ 0x7A) ∨ (0x41 ≤ c.toNat ∧ c.toNat ≤ 0x5A) ∨
    (0x3041 ≤ c.toNat ∧ c.toNat ≤ 0x3096) ∨ (0x30A1 ≤ c.toNat ∧ c.toNat ≤ 0x30FE) ∨
    (0x4E00 ≤ c.toNat ∧ c.toNat ≤ 0x9FAF)) || c.isWhitespace

/-- app.py `validate_and_format_name` (lines 212-228), returning the Python
pair (formatted_name, error_msg). -/
def validate_and_format_name (name : String) : Option String × Option String :=
  if name = "" ∨ (pyStrip name).length < 2 then
    (none, some "名前が短すぎます。2文字以上で入力してください。")
  else if !((pyStrip name).toList.all isAllowedNameChar) then
    (none, some "名前には文字とスペースのみを使用してください。")
  else if (removeWhitespace (pyStrip name)).length > 20 then
    (none, some "名前が長すぎます。20文字以内で入力してください。")
  else (some (removeWhitespace (pyStrip name)), none)

/-- Reply of the schedule-change branch (app.py lines 702-707). -/
def scheduleChangeReply (user_name user_message : String) : String :=
  user_name ++
  "さん、シフト変更依頼を受け付けました。\n\n📝 依頼内容: " ++ user_message ++
  "\n\n田野義和マネージャーに通知しました。承認され次第、ご連絡いたします。\nしばらくお待ちください。"

/-- app.py `get_shift_response` (lines 360-370). -/
def get_shift_response (user_name : String) : String :=
  user_name ++
  "さん、シフト情報についてですね。\n\n申し訳ありませんが、現在システムにあなたのシフトデータが登録されていません。\n\nシフト情報が必要な場合は：\n1. 田野義和マネージャーに直接お問い合わせください\n2. または、管理者からシフト通知が届くまでお待ちください\n\nシフトの変更依頼がある場合は、「変更」とメッセージを送ってください。"

/-- Exact registration keywords (app.py line 740). -/
def registration_keywords : List String := ["登録", "register", "とうろく"]

/-- The registration instructions reply (app.py lines 741-752). -/
def registrationInstructions : String :=
  "こんにちは！シフト管理システムへようこそ。\n\n📝 登録方法:\nあなたのフルネームをスペースなしで入力してください。\n\n例: 田中太郎 → 「田中太郎」\n例: 山田花子 → 「山田花子」\n\n⚠️ 注意:\n• スペースは自動的に削除されます\n• 2-20文字以内\n• ひらがな・カタカナ・漢字・英字のみ使用可能"

/-- The successful-registration reply (app.py lines 770-775). -/
def registrationSuccessReply (formatted_name : String) : String :=
  "✅ 登録が完了しました！\n\nお名前: " ++ formatted_name ++
  "さん\n\nこれでシフト通知を受け取ることができるようになりました。\nシフトの変更依頼がある場合は、メッセージを送ってください。"

/-- The name-taken reply (app.py lines 783-788), embedding the raw message. -/
def nameTakenReply (user_message : String) : String :=
  "❌ 登録エラー\n\n「" ++ user_message ++
  "」はすでに使用されています。\n\n別の名前で再度お試しください。\n例: " ++
  user_message ++ "2 や " ++ user_message ++ "太郎"

/-- The invalid-name reply (app.py lines 796-805); a `None` error message
would render as `None`. -/
def invalidNameReply (error_msg : Option String) : String :=
  "❌ 名前が無効です\n\n" ++ (match error_msg with | some e => e | none => "None") ++
  "\n\n📝 正しい形式:\n• スペースなしで入力\n• 2-20文字以内\n• ひらがな・カタカナ・漢字・英字のみ\n\n例: 「田中太郎」「YamadaHanako」"

/-- The too-short prompt for unregistered users (app.py lines 814-818). -/
def shortMessagePrompt : String :=
  "👋 こんにちは！\n\nシフト通知を受け取るには、まず登録が必要です。\n\n「登録」と入力して、登録を開始してください。"

/-- app.py `process_user_message` (lines 683-836).  `ai` abstracts
`generate_ai_response` (whose Gemini call, history trimming and fallback do
not touch the database); `weekStart` abstracts the Monday of the current week
computed in `record_shift_confirmation`; the manager notifications are
database-free HTTP pushes and are omitted.  The registered branch stores the
user message first and classifies schedule-change, then confirmation, then
inquiry, then the AI fallback; the unregistered branch runs the registration
flow, where the `INSERT` raises `IntegrityError` exactly when the user id or
the name is already present. -/
def process_user_message (ai : String → String) (weekStart : String)
    (db : DB) (user_id user_message : String) : DB × String :=
  match db.users.lookup user_id with
  | some user_name =>
    let db1 := store_conversation db user_id "user" user_message
    if is_schedule_change_request user_message then
      let response := scheduleChangeReply user_name user_message
      (store_conversation db1 user_id "assistant" response, response)
    else if is_shift_confirmation user_message then
      let result := record_shift_confirmation db1 weekStart user_id user_name
      (store_conversation result.1 user_id "assistant" result.2.2, result.2.2)
    else if is_shift_inquiry user_message then
      let response := get_shift_response user_name
      (store_conversation db1 user_id "assistant" response, response)
    else
      let response := ai user_message
      (store_conversation db1 user_id "assistant" response, response)
  | none =>
    if asciiLower user_message ∈ registration_keywords then
      let db1 := store_conversation db user_id "user" user_message
      (store_conversation db1 user_id "assistant" registrationInstructions,
       registrationInstructions)
    else if 2 ≤ user_message.length then
      match validate_and_format_name user_message with
      | (some formatted_name, error_msg) =>
        if formatted_name = "" then
          let response := invalidNameReply error_msg
          let db1 := store_conversation db user_id "user" user_message
          (store_conversation db1 user_id "assistant" response, response)
        else if db.users.any (fun p => p.1 == user_id || p.2 == formatted_name) then
          let response := nameTakenReply user_message
          let db1 := store_conversation db user_id "user" user_message
          (store_conversation db1 user_id "assistant" response, response)
        else
          let db' := { db with users := db.users ++ [(user_id, formatted_name)] }
          let response := registrationSuccessReply formatted_name
          let db1 := store_conversation db' user_id "user" user_message
          (store_conversation db1 user_id "assistant" response, response)
      | (none, error_msg) =>
        let response := invalidNameReply error_msg
        let db1 := store_conversation db user_id "user" user_message
        (store_conversation db1 user_id "assistant" response, response)
    else
      let db1 := store_conversation db user_id "user" user_message
      (store_conversation db1 user_id "assistant" shortMessagePrompt,
       shortMessagePrompt)

/-- One LINE webhook event envelope (the fields the router reads; a missing
`source.userId` is the empty string). -/
structure LineEvent where
  type : String
  messageType : String
  text : String
  sourceUserId : String
deriving DecidableEq

/-- The body of an inbound webhook POST, as the router distinguishes it:
not JSON at all, a falsy JSON body, JSON without an `events` field, or a
JSON body with an `events` list. -/
inductive Payload
  | notJson
  | nullBody
  | noEventsField
  | withEvents (events : List LineEvent)
deriving DecidableEq

/-- The response of the webhook endpoint: resulting database state, HTTP
status code, and the JSON `status` field. -/
structure WebhookResponse where
  db : DB
  statusCode : Nat
  status : String
deriving DecidableEq

/-- app.py `webhook` POST handling (lines 610-681): the three malformed cases
are answered with HTTP 400; otherwise each text-message event is routed
through `process_user_message` (its reply push and any per-event exception
are swallowed) and the endpoint answers HTTP 200 `success`. -/
def webhook (ai : String → String) (weekStart : String) (db : DB) :
    Payload → WebhookResponse
  | .notJson => ⟨db, 400, "error"⟩
  | .nullBody => ⟨db, 400, "error"⟩
  | .noEventsField => ⟨db, 400, "error"⟩
  | .withEvents events =>
    ⟨events.foldl
      (fun d e =>
        if e.type == "message" && e.messageType == "text" then
          if e.sourceUserId == "" then d
          else if pyStrip e.text == "" then d
          else (process_user_message ai weekStart d e.sourceUserId (pyStrip e.text)).1
        else d) db,
     200, "success"⟩

/-- Sequential routing of several inbound messages (user id, text). -/
def processList (ai : String → String) (weekStart : String) :
    DB → List (String × String) → DB × List String
  | db, [] => (db, [])
  | db, (uid, m) :: rest =>
    let r := process_user_message ai weekStart db uid m
    let rr := processList ai weekStart r.1 rest
    (rr.1, r.2 :: rr.2)

/-- Number of confirmed Ledger rows for a (user, week) pair. -/
def confirmedCount (db : DB) (uid weekStart : String) : Nat :=
  (db.confRows.filter (fun c =>
    c.user_id == uid && c.week_start == weekStart && c.status == "confirmed")).length

/-- Folding `store_conversation` over a sequence of (user, role, message)
inserts. -/
def runStores : DB → List (String × String × String) → DB
  | db, [] => db
  | db, op :: rest => runStores (store_conversation db op.1 op.2.1 op.2.2) rest

/-- The rows the same sequence would insert with no pruning, ids assigned
sequentially from `n`. -/
def allConvInserts : Nat → List (String × String × String) → List ConvRow
  | _, [] => []
  | n, op :: rest => ⟨n, op.1, op.2.1, op.2.2⟩ :: allConvInserts (n + 1) rest

/-! Theorems. -/

/-! Helper lemmas about lists. -/

theorem length_filter_not {α : Type} (p : α → Bool) (l : List α) :
    (l.filter (fun a => !p a)).length = l.length - (l.filter p).length := by
  induction l with
  | nil => rfl
  | cons a tl ih =>
    have hle := List.length_filter_le p tl
    rcases Bool.eq_false_or_eq_true (p a) with h | h <;>
      simp [List.filter_cons, h, ih] <;> omega

theorem lookup_mem {β : Type} {l : List (String × β)} {n : String} {v : β}
    (h : l.lookup n = some v) : ∃ k, (k, v) ∈ l := by
  induction l with
  | nil => cases h
  | cons p tl ih =>
    rcases p with ⟨k, w⟩
    rw [List.lookup_cons] at h
    by_cases hk : (n == k) = true
    · simp only [hk] at h
      exact ⟨k, by simp at h; simp [h]⟩
    · simp only [Bool.not_eq_true] at hk
      simp only [hk] at h
      obtain ⟨k', hk'⟩ := ih h
      exact ⟨k', List.mem_cons_of_mem _ hk'⟩

/-! Properties of the dispatch loop. -/

theorem sendLoop_errors (registered : List (String × String))
    (gateway : String → String → Bool) (rows : List ShiftRow)
    (names : List String) :
    (sendLoop registered gateway rows names).errors =
      (names.filter (fun n => isMiss registered n)).map notFoundMsg := by
  induction names with
  | nil => rfl
  | cons n rest ih =>
    rcases Bool.eq_false_or_eq_true (isMiss registered n) with h | h
    · simp [sendLoop, h, List.filter_cons, ih]
    · rcases Bool.eq_false_or_eq_true
        (gateway (pushOf registered rows n).1 (pushOf registered rows n).2) with hg | hg <;>
        simp [sendLoop, h, hg, List.filter_cons, ih]

theorem sendLoop_pushes (registered : List (String × String))
    (gateway : String → String → Bool) (rows : List ShiftRow)
    (names : List String) :
    (sendLoop registered gateway rows names).pushes =
      (names.filter (fun n => !isMiss registered n)).map (pushOf registered rows) := by
  induction names with
  | nil => rfl
  | cons n rest ih =>
    rcases Bool.eq_false_or_eq_true (isMiss registered n) with h | h
    · simp [sendLoop, h, List.filter_cons, ih]
    · rcases Bool.eq_false_or_eq_true
        (gateway (pushOf registered rows n).1 (pushOf registered rows n).2) with hg | hg <;>
        simp [sendLoop, h, hg, List.filter_cons, ih]

theorem sendLoop_successful (registered : List (String × String))
    (gateway : String → String → Bool) (rows : List ShiftRow)
    (names : List String) :
    (sendLoop registered gateway rows names).successful_sends =
      (names.filter (fun n => !isMiss registered n)).countP
        (fun n => gateway (pushOf registered rows n).1 (pushOf registered rows n).2) := by
  induction names with
  | nil => rfl
  | cons n rest ih =>
    rcases Bool.eq_false_or_eq_true (isMiss registered n) with h | h
    · simp [sendLoop, h, List.filter_cons, ih]
    · rcases Bool.eq_false_or_eq_true
        (gateway (pushOf registered rows n).1 (pushOf registered rows n).2) with hg | hg <;>
        simp [sendLoop, h, hg, List.filter_cons, List.countP_cons, ih]

theorem sendLoop_failed (registered : List (String × String))
    (gateway : String → String → Bool) (rows : List ShiftRow)
    (names : List String) :
    (sendLoop registered gateway rows names).failed_sends =
      names.countP (fun n => isMiss registered n) +
        (names.filter (fun n => !isMiss registered n)).countP
          (fun n => !gateway (pushOf registered rows n).1 (pushOf registered rows n).2) := by
  induction names with
  | nil => rfl
  | cons n rest ih =>
    rcases Bool.eq_false_or_eq_true (isMiss registered n) with h | h
    · simp [sendLoop, h, List.filter_cons, List.countP_cons, ih]
      omega
    · rcases Bool.eq_false_or_eq_true
        (gateway (pushOf registered rows n).1 (pushOf registered rows n).2) with hg | hg <;>
        simp [sendLoop, h, hg, List.filter_cons, List.countP_cons, ih] <;> omega

theorem send_messages_spec (registered : List (String × String))
    (gateway : String → String → Bool) (rows : List ShiftRow)
    (hrows : rows ≠ []) :
    send_messages registered gateway rows =
      (if (sendLoop registered gateway rows (distinctNames rows)).failed_sends = 0 then
        ⟨"success",
         (sendLoop registered gateway rows (distinctNames rows)).successful_sends,
         (sendLoop registered gateway rows (distinctNames rows)).failed_sends,
         [],
         (sendLoop registered gateway rows (distinctNames rows)).pushes⟩
      else if (sendLoop registered gateway rows (distinctNames rows)).successful_sends = 0 then
        ⟨"error",
         (sendLoop registered gateway rows (distinctNames rows)).successful_sends,
         (sendLoop registered gateway rows (distinctNames rows)).failed_sends,
         (sendLoop registered gateway rows (distinctNames rows)).errors.take 5,
         (sendLoop registered gateway rows (distinctNames rows)).pushes⟩
      else
        ⟨"warning",
         (sendLoop registered gateway rows (distinctNames rows)).successful_sends,
         (sendLoop registered gateway rows (distinctNames rows)).failed_sends,
         (sendLoop registered gateway rows (distinctNames rows)).errors.take 5,
         (sendLoop registered gateway rows (distinctNames rows)).pushes⟩) := by
  have hempty : rows.isEmpty = false := by
    cases rows with
    | nil => exact absurd rfl hrows
    | cons a tl => rfl
  simp [send_messages, hempty]

/-- C4 (amended): in a dispatched group, a row with non-empty `start_time` and
non-empty `end_time` is always formatted in the "date, start–end" form — also
when `start_time` equals the attendance marker `出勤` — and the "date, marker"
form is produced exactly when `start_time` is the marker and `end_time` is
empty; the `place` suffix is appended when present and non-null in either
case. -/
theorem C4_line_format (r : ShiftRow) :
    (r.start_time ≠ "" ∧ r.end_time ≠ "" →
      formatShiftLine r =
        "日付: " ++ r.shift_date ++ ", " ++ r.start_time ++ " - " ++ r.end_time
          ++ placeSuffix r.place) ∧
    (r.start_time = "出勤" ∧ r.end_time = "" →
      formatShiftLine r =
        "日付: " ++ r.shift_date ++ ", 時間: " ++ "出勤" ++ placeSuffix r.place) := by
  constructor
  · rintro ⟨h1, h2⟩
    simp only [formatShiftLine]
    rw [if_pos ⟨h1, h2⟩]
  · rintro ⟨h1, h2⟩
    have hneg : ¬(r.start_time ≠ "" ∧ r.end_time ≠ "") := fun hc => hc.2 h2
    simp only [formatShiftLine]
    rw [if_neg hneg, if_pos h1, h1]

/-- Witness for C4_line_format at a concrete marker row with empty end time. -/
theorem C4_line_format_witness :
    formatShiftLine ⟨"Alice", "2024-07-01", "出勤", "", none⟩ =
      "日付: " ++ "2024-07-01" ++ ", 時間: " ++ "出勤" ++ placeSuffix none :=
  (C4_line_format ⟨"Alice", "2024-07-01", "出勤", "", none⟩).2 ⟨rfl, rfl⟩

/-- C4 counterexample: a row whose `start_time` equals the attendance marker
but whose `end_time` is non-empty is formatted in the "date, start–end" form,
not the "date, marker" form the claim asserts. -/
theorem C4_counterexample :
    formatShiftLine ⟨"Alice", "2024-07-01", "出勤", "17:00", none⟩ =
      "日付: 2024-07-01, 出勤 - 17:00" ∧
    "日付: 2024-07-01, 出勤 - 17:00" ≠ "日付: 2024-07-01, 時間: 出勤" := by
  exact ⟨by decide, by decide⟩

/-- C1 (confirmed): dispatching a non-empty validated row list whose distinct
employee names number K, of which M have no Directory entry (Directory ids
being non-empty strings), under a gateway whose every push succeeds, reports
exactly M failed sends, attempts exactly K − M pushes (all successful), and
the response status is `success` iff M = 0, `error` iff M = K, and `warning`
iff 0 < M < K. -/
theorem C1_dispatch_tally (registered : List (String × String)) (rows : List ShiftRow)
    (hrows : rows ≠ []) (huid : ∀ p ∈ registered, p.2 ≠ "") :
    (send_messages registered (fun _ _ => true) rows).failed_sends =
        ((distinctNames rows).filter fun n => (registered.lookup n).isNone).length ∧
    (send_messages registered (fun _ _ => true) rows).pushes.length =
        (distinctNames rows).length -
          ((distinctNames rows).filter fun n => (registered.lookup n).isNone).length ∧
    (send_messages registered (fun _ _ => true) rows).successful_sends =
        (distinctNames rows).length -
          ((distinctNames rows).filter fun n => (registered.lookup n).isNone).length ∧
    ((send_messages registered (fun _ _ => true) rows).status = "success" ↔
        ((distinctNames rows).filter fun n => (registered.lookup n).isNone).length = 0) ∧
    ((send_messages registered (fun _ _ => true) rows).status = "error" ↔
        ((distinctNames rows).filter fun n => (registered.lookup n).isNone).length =
          (distinctNames rows).length) ∧
    ((send_messages registered (fun _ _ => true) rows).status = "warning" ↔
        (0 < ((distinctNames rows).filter fun n => (registered.lookup n).isNone).length ∧
         ((distinctNames rows).filter fun n => (registered.lookup n).isNone).length <
           (distinctNames rows).length)) := by
  have hmiss : ∀ n, isMiss registered n = (registered.lookup n).isNone := by
    intro n
    unfold isMiss
    cases h : registered.lookup n with
    | none => rfl
    | some uid =>
      obtain ⟨k, hk⟩ := lookup_mem h
      have huid' : uid ≠ "" := huid (k, uid) hk
      simp [huid']
  have hfilter_eq :
      (distinctNames rows).filter (fun n => isMiss registered n) =
        (distinctNames rows).filter (fun n => (registered.lookup n).isNone) :=
    List.filter_congr (fun n _ => by rw [hmiss])
  have hMK :
      ((distinctNames rows).filter fun n => (registered.lookup n).isNone).length ≤
        (distinctNames rows).length := List.length_filter_le _ _
  have hKpos : 0 < (distinctNames rows).length := by
    apply List.length_pos.mpr
    intro hnil
    exact hrows (List.map_eq_nil_iff.mp ((List.dedup_eq_nil _).mp hnil))
  have hfailed :
      (sendLoop registered (fun _ _ => true) rows (distinctNames rows)).failed_sends =
        ((distinctNames rows).filter fun n => (registered.lookup n).isNone).length := by
    rw [sendLoop_failed]
    simp only [Bool.not_true]
    rw [List.countP_eq_length_filter, hfilter_eq]
    simp
  have hresolved :
      ((distinctNames rows).filter fun n => !isMiss registered n).length =
        (distinctNames rows).length -
          ((distinctNames rows).filter fun n => (registered.lookup n).isNone).length := by
    rw [length_filter_not (fun n => isMiss registered n) (distinctNames rows), hfilter_eq]
  have hsucc :
      (sendLoop registered (fun _ _ => true) rows (distinctNames rows)).successful_sends =
        (distinctNames rows).length -
          ((distinctNames rows).filter fun n => (registered.lookup n).isNone).length := by
    rw [sendLoop_successful]
    rw [← hresolved]
    simp [List.countP_eq_length_filter]
  have hpush :
      (sendLoop registered (fun _ _ => true) rows (distinctNames rows)).pushes.length =
        (distinctNames rows).length -
          ((distinctNames rows).filter fun n => (registered.lookup n).isNone).length := by
    rw [sendLoop_pushes, List.length_map, hresolved]
  have hse : ("success" : String) ≠ "error" := by decide
  have hsw : ("success" : String) ≠ "warning" := by decide
  have hes : ("error" : String) ≠ "success" := by decide
  have hew : ("error" : String) ≠ "warning" := by decide
  have hws : ("warning" : String) ≠ "success" := by decide
  have hwe : ("warning" : String) ≠ "error" := by decide
  rw [send_messages_spec registered (fun _ _ => true) rows hrows]
  by_cases hM0 : ((distinctNames rows).filter fun n => (registered.lookup n).isNone).length = 0
  · rw [if_pos (by rw [hfailed, hM0])]
    refine ⟨by rw [hfailed], by rw [hpush], by rw [hsucc], ?_, ?_, ?_⟩
    · simp [hM0]
    · constructor
      · intro h; exact absurd h hse
      · intro h; omega
    · constructor
      · intro h; exact absurd h hsw
      · intro h; omega
  · rw [if_neg (by rw [hfailed]; exact hM0)]
    by_cases hS0 :
        ((distinctNames rows).filter fun n => (registered.lookup n).isNone).length =
          (distinctNames rows).length
    · rw [if_pos (by rw [hsucc, hS0]; omega)]
      refine ⟨by rw [hfailed], by rw [hpush], by rw [hsucc], ?_, ?_, ?_⟩
      · constructor
        · intro h; exact absurd h hes
        · intro h; exact absurd h hM0
      · simp [hS0]
      · constructor
        · intro h; exact absurd h hew
        · intro h; omega
    · rw [if_neg (by rw [hsucc]; omega)]
      refine ⟨by rw [hfailed], by rw [hpush], by rw [hsucc], ?_, ?_, ?_⟩
      · constructor
        · intro h; exact absurd h hws
        · intro h; exact absurd h hM0
      · constructor
        · intro h; exact absurd h hwe
        · intro h; exact absurd h hS0
      · simp
        omega

/-- Witness for C1_dispatch_tally: one resolved name and one unresolved name
give a warning response. -/
theorem C1_dispatch_tally_witness :
    (send_messages [("Alice", "U1")] (fun _ _ => true)
        [⟨"Alice", "2024-07-01", "09:00", "17:00", none⟩,
         ⟨"Bob", "2024-07-02", "09:00", "17:00", none⟩]).status = "warning" :=
  ((C1_dispatch_tally [("Alice", "U1")]
      [⟨"Alice", "2024-07-01", "09:00", "17:00", none⟩,
       ⟨"Bob", "2024-07-02", "09:00", "17:00", none⟩]
      (by decide) (by decide)).2.2.2.2.2).mpr (by decide)

/-- C10 (confirmed): across any dispatch, the response's error list consists
exactly of the Directory-lookup-miss messages (truncated to 5, empty on full
success) — a failed gateway push contributes to the failed tally but never to
the error list. -/
theorem C10_gateway_failures_unreported (registered : List (String × String))
    (gateway : String → String → Bool) (rows : List ShiftRow) :
    (send_messages registered gateway rows).errors =
      (if (send_messages registered gateway rows).failed_sends = 0 then []
       else (((distinctNames rows).filter fun n => isMiss registered n).map
              notFoundMsg).take 5) ∧
    (send_messages registered gateway rows).failed_sends =
      (distinctNames rows).countP (fun n => isMiss registered n) +
        (send_messages registered gateway rows).pushes.countP
          (fun p => !gateway p.1 p.2) := by
  have hfail_eq : ∀ o, o = sendLoop registered gateway rows (distinctNames rows) →
      o.failed_sends =
        (distinctNames rows).countP (fun n => isMiss registered n) +
          o.pushes.countP (fun p => !gateway p.1 p.2) := by
    intro o ho
    rw [ho, sendLoop_failed, sendLoop_pushes, List.countP_map]
    rfl
  by_cases hrows : rows = []
  · subst hrows
    simp [send_messages, distinctNames]
  · rw [send_messages_spec registered gateway rows hrows]
    by_cases hf : (sendLoop registered gateway rows (distinctNames rows)).failed_sends = 0
    · rw [if_pos hf]
      exact ⟨by simp [hf], hfail_eq _ rfl⟩
    · rw [if_neg hf]
      by_cases hs : (sendLoop registered gateway rows (distinctNames rows)).successful_sends = 0
      · rw [if_pos hs]
        exact ⟨by simp [hf, sendLoop_errors], hfail_eq _ rfl⟩
      · rw [if_neg hs]
        exact ⟨by simp [hf, sendLoop_errors], hfail_eq _ rfl⟩

/-! Lemmas about column access and preview construction. -/

theorem colIndex_eq_none_of_not_mem {cols : List String} {c : String}
    (h : c ∉ cols) : colIndex cols c = none := by
  induction cols with
  | nil => rfl
  | cons a tl ih =>
    have ha : (a == c) = false := by
      apply beq_eq_false_iff_ne.mpr
      intro he
      exact h (by rw [← he]; exact List.mem_cons_self a tl)
    simp [colIndex, ha, ih (fun hc => h (List.mem_cons_of_mem _ hc))]

theorem colIndex_isSome_of_mem {cols : List String} {c : String}
    (h : c ∈ cols) : ∃ i, colIndex cols c = some i := by
  induction cols with
  | nil => cases h
  | cons a tl ih =>
    by_cases ha : (a == c) = true
    · exact ⟨0, by simp [colIndex, ha]⟩
    · rcases List.mem_cons.mp h with he | hm
      · exact absurd (beq_iff_eq.mpr he.symm) ha
      · obtain ⟨i, hi⟩ := ih hm
        exact ⟨i + 1, by simp [colIndex, ha, hi]⟩

theorem getKey_ok_of_mem {df : DataFrame} {c : String}
    (row : List (Option String)) (hc : c ∈ df.columns) :
    ∃ v, getKey df row c = Except.ok v := by
  obtain ⟨i, hi⟩ := colIndex_isSome_of_mem hc
  exact ⟨(row.get? i).getD none, by simp [getKey, hi]⟩

theorem getKey_err_of_not_mem {df : DataFrame} {c : String}
    (row : List (Option String)) (hc : c ∉ df.columns) :
    getKey df row c = Except.error ("'" ++ c ++ "'") := by
  simp [getKey, colIndex_eq_none_of_not_mem hc]

theorem previewOfRow_ok_of_mem {df : DataFrame} (row : List (Option String))
    (h1 : "employee_name" ∈ df.columns) (h2 : "line_user_id" ∈ df.columns)
    (h3 : "shift_date" ∈ df.columns) (h4 : "start_time" ∈ df.columns)
    (h5 : "end_time" ∈ df.columns) :
    ∃ p, previewOfRow df row = Except.ok p := by
  obtain ⟨v1, hv1⟩ := getKey_ok_of_mem row h1
  obtain ⟨v2, hv2⟩ := getKey_ok_of_mem row h2
  obtain ⟨v3, hv3⟩ := getKey_ok_of_mem row h3
  obtain ⟨v4, hv4⟩ := getKey_ok_of_mem row h4
  obtain ⟨v5, hv5⟩ := getKey_ok_of_mem row h5
  exact ⟨⟨pystr v1, pystr v2, splitSpaceHead (pystr v3), pystr v4, pystr v5⟩,
    by simp [previewOfRow, hv1, hv2, hv3, hv4, hv5]⟩

theorem previewOfRow_err_of_no_lu {df : DataFrame} (row : List (Option String))
    (h1 : "employee_name" ∈ df.columns) (h2 : "line_user_id" ∉ df.columns) :
    previewOfRow df row = Except.error "'line_user_id'" := by
  obtain ⟨v1, hv1⟩ := getKey_ok_of_mem row h1
  have he : ("'" ++ "line_user_id" ++ "'" : String) = "'line_user_id'" := rfl
  simp [previewOfRow, hv1, getKey_err_of_not_mem row h2, he]

theorem mapExcept_ok {α β ε : Type} (f : α → Except ε β) (l : List α)
    (h : ∀ a ∈ l, ∃ b, f a = Except.ok b) :
    ∃ bs, mapExcept f l = Except.ok bs ∧ bs.length = l.length := by
  induction l with
  | nil => exact ⟨[], rfl, rfl⟩
  | cons a tl ih =>
    obtain ⟨b, hb⟩ := h a (List.mem_cons_self a tl)
    obtain ⟨bs, hbs, hlen⟩ := ih (fun x hx => h x (List.mem_cons_of_mem _ hx))
    exact ⟨b :: bs, by simp [mapExcept, hb, hbs], by simp [hlen]⟩

/-- C2 counterexample: a spreadsheet holding one complete row and one row with
a null in a required column is rejected outright with "Some rows have missing
data" — it does not succeed with the surviving complete row as the claim
asserts. -/
theorem C2_counterexample :
    upload_file "shifts.xlsx"
        ⟨["employee_name", "shift_date", "start_time", "end_time", "line_user_id"],
         [[some "Alice", some "2024-07-01", some "09:00", some "17:00", some "U1"],
          [some "Bob", none, some "09:00", some "17:00", some "U2"]]⟩ =
      UploadResult.err "Some rows have missing data" ∧
    rowHasNull
        ⟨["employee_name", "shift_date", "start_time", "end_time", "line_user_id"],
         [[some "Alice", some "2024-07-01", some "09:00", some "17:00", some "U1"],
          [some "Bob", none, some "09:00", some "17:00", some "U2"]]⟩
        required_columns
        [some "Alice", some "2024-07-01", some "09:00", some "17:00", some "U1"] = false ∧
    rowHasNull
        ⟨["employee_name", "shift_date", "start_time", "end_time", "line_user_id"],
         [[some "Alice", some "2024-07-01", some "09:00", some "17:00", some "U1"],
          [some "Bob", none, some "09:00", some "17:00", some "U2"]]⟩
        required_columns
        [some "Bob", none, some "09:00", some "17:00", some "U2"] = true := by
  exact ⟨by decide, by decide, by decide⟩

/-- C2 (amended): for an upload with allowed extension and all required
columns, ingestion rejects the whole file ("Some rows have missing data")
whenever any row has a null in a required column; the zero-surviving-rows
error occurs exactly for a file with no rows at all; and ingestion succeeds
returning every row only when every row is complete (and the `line_user_id`
column needed by the preview is present). -/
theorem C2_ingestion (filename : String) (df : DataFrame)
    (hname : filename ≠ "") (hext : allowed_file filename = true)
    (hcols : ∀ c ∈ required_columns, c ∈ df.columns) :
    ((∃ row ∈ df.rows, rowHasNull df required_columns row = true) →
      upload_file filename df = UploadResult.err "Some rows have missing data") ∧
    (df.rows = [] →
      upload_file filename df =
        UploadResult.err "No valid data found in the uploaded file") ∧
    ((∀ row ∈ df.rows, rowHasNull df required_columns row = false) →
      df.rows ≠ [] → "line_user_id" ∈ df.columns →
      ∃ preview, upload_file filename df = UploadResult.ok preview ∧
        preview.length = df.rows.length) := by
  have hmiss : missingColumns df = [] := by
    apply List.filter_eq_nil_iff.mpr
    intro c hc
    simp [hcols c hc, List.elem_iff.mpr (hcols c hc)]
  refine ⟨?_, ?_, ?_⟩
  · rintro ⟨row, hrow, hnull⟩
    have hany : df.rows.any (fun r => rowHasNull df required_columns r) = true :=
      List.any_eq_true.mpr ⟨row, hrow, hnull⟩
    have hval : validate_excel_data df = (false, "Some rows have missing data") := by
      simp [validate_excel_data, hmiss, hany]
    simp [upload_file, hname, hext, hval]
  · intro hempty
    have hany : df.rows.any (fun r => rowHasNull df required_columns r) = false := by
      rw [hempty]; rfl
    have hval : validate_excel_data df = (true, "Valid data structure") := by
      simp [validate_excel_data, hmiss, hany]
    simp [upload_file, hname, hext, hval, hempty]
  · intro hfull hne hlu
    have hany : df.rows.any (fun r => rowHasNull df required_columns r) = false := by
      apply List.any_eq_false.mpr
      intro r hr
      simp [hfull r hr]
    have hval : validate_excel_data df = (true, "Valid data structure") := by
      simp [validate_excel_data, hmiss, hany]
    have hsurv : df.rows.filter (fun r => !rowHasNull df required_columns r) = df.rows :=
      List.filter_eq_self.mpr (fun r hr => by simp [hfull r hr])
    have hok : ∀ r ∈ df.rows, ∃ p, previewOfRow df r = Except.ok p := by
      intro r _
      exact previewOfRow_ok_of_mem r
        (hcols "employee_name" (by decide)) hlu
        (hcols "shift_date" (by decide)) (hcols "start_time" (by decide))
        (hcols "end_time" (by decide))
    obtain ⟨preview, hprev, hlen⟩ := mapExcept_ok (previewOfRow df) df.rows hok
    refine ⟨preview, ?_, hlen⟩
    have hneEmpty : df.rows.isEmpty = false := by
      cases h : df.rows with
      | nil => exact absurd h hne
      | cons a tl => rfl
    simp [upload_file, hname, hext, hval, hsurv, hneEmpty, hprev]

/-- Witness for C2_ingestion: a frame with the required columns and no rows
is rejected with the no-valid-data error. -/
theorem C2_ingestion_witness :
    upload_file "shifts.xlsx"
        ⟨["employee_name", "shift_date", "start_time", "end_time"], []⟩ =
      UploadResult.err "No valid data found in the uploaded file" :=
  (C2_ingestion "shifts.xlsx"
      ⟨["employee_name", "shift_date", "start_time", "end_time"], []⟩
      (by decide) (by decide) (by decide)).2.1 rfl

/-- C9 (confirmed): when the spreadsheet lacks a `line_user_id` column, the
upload endpoint returns an error response even though all required columns
are present and every row is complete — the preview construction raises
`KeyError('line_user_id')`, caught and rendered as a processing error. -/
theorem C9_missing_line_user_id (filename : String) (df : DataFrame)
    (hname : filename ≠ "") (hext : allowed_file filename = true)
    (hcols : ∀ c ∈ required_columns, c ∈ df.columns)
    (hlu : "line_user_id" ∉ df.columns)
    (hne : df.rows ≠ [])
    (hfull : ∀ row ∈ df.rows, rowHasNull df required_columns row = false) :
    upload_file filename df =
      UploadResult.err "Error processing file: 'line_user_id'" := by
  have hmiss : missingColumns df = [] := by
    apply List.filter_eq_nil_iff.mpr
    intro c hc
    simp [hcols c hc, List.elem_iff.mpr (hcols c hc)]
  have hany : df.rows.any (fun r => rowHasNull df required_columns r) = false := by
    apply List.any_eq_false.mpr
    intro r hr
    simp [hfull r hr]
  have hval : validate_excel_data df = (true, "Valid data structure") := by
    simp [validate_excel_data, hmiss, hany]
  have hsurv : df.rows.filter (fun r => !rowHasNull df required_columns r) = df.rows :=
    List.filter_eq_self.mpr (fun r hr => by simp [hfull r hr])
  obtain ⟨r, rest, hshape⟩ : ∃ r rest, df.rows = r :: rest := by
    cases h : df.rows with
    | nil => exact absurd h hne
    | cons a tl => exact ⟨a, tl, rfl⟩
  have hfirst : previewOfRow df r =  Except.error "'line_user_id'" :=
    previewOfRow_err_of_no_lu r (hcols "employee_name" (by decide)) hlu
  have hmap : mapExcept (previewOfRow df) df.rows = Except.error "'line_user_id'" := by
    rw [hshape]
    simp [mapExcept, hfirst]
  have hneEmpty : df.rows.isEmpty = false := by
    rw [hshape]; rfl
  simp [upload_file, hname, hext, hval, hsurv, hneEmpty, hmap]

/-- Witness for C9_missing_line_user_id at a concrete complete one-row frame
without `line_user_id`. -/
theorem C9_missing_line_user_id_witness :
    upload_file "shifts.xlsx"
        ⟨["employee_name", "shift_date", "start_time", "end_time"],
         [[some "Alice", some "2024-07-01", some "09:00", some "17:00"]]⟩ =
      UploadResult.err "Error processing file: 'line_user_id'" :=
  C9_missing_line_user_id "shifts.xlsx"
    ⟨["employee_name", "shift_date", "start_time", "end_time"],
     [[some "Alice", some "2024-07-01", some "09:00", some "17:00"]]⟩
    (by decide) (by decide) (by decide) (by decide) (by decide) (by decide)

/-! Small invariance lemmas about the database operations. -/

theorem store_conversation_users (db : DB) (u r m : String) :
    (store_conversation db u r m).users = db.users := rfl

theorem store_conversation_confRows (db : DB) (u r m : String) :
    (store_conversation db u r m).confRows = db.confRows := rfl

theorem record_conv_users (db : DB) (w uid nm : String) :
    (record_shift_confirmation db w uid nm).1.convRows = db.convRows ∧
    (record_shift_confirmation db w uid nm).1.nextConvId = db.nextConvId ∧
    (record_shift_confirmation db w uid nm).1.users = db.users := by
  unfold record_shift_confirmation
  split
  · exact ⟨rfl, rfl, rfl⟩
  · exact ⟨rfl, rfl, rfl⟩

theorem lookup_eq_none {β : Type} {l : List (String × β)} {k : String}
    (h : l.lookup k = none) : ∀ p ∈ l, p.1 ≠ k := by
  induction l with
  | nil => intro p hp; cases hp
  | cons a tl ih =>
    intro p hp
    rcases a with ⟨k', v⟩
    rw [List.lookup_cons] at h
    by_cases hk : (k == k') = true
    · simp [hk] at h
    · simp only [Bool.not_eq_true] at hk
      simp only [hk] at h
      rcases List.mem_cons.mp hp with he | hm
      · subst he
        intro hpk
        exact absurd (beq_iff_eq.mpr hpk.symm) (by simp [hk])
      · exact ih h p hm

/-- C8 (amended): every webhook POST whose body is JSON and carries an
`events` field is acknowledged with HTTP 200 and status `success`, whatever
the events contain and however their processing behaves; the malformed cases
(non-JSON body, falsy body, missing `events`) are answered with HTTP 400, a
failure status. -/
theorem C8_webhook_ack (ai : String → String) (weekStart : String) (db : DB) :
    (∀ events,
      (webhook ai weekStart db (Payload.withEvents events)).statusCode = 200 ∧
      (webhook ai weekStart db (Payload.withEvents events)).status = "success") ∧
    (webhook ai weekStart db Payload.notJson).statusCode = 400 ∧
    (webhook ai weekStart db Payload.nullBody).statusCode = 400 ∧
    (webhook ai weekStart db Payload.noEventsField).statusCode = 400 :=
  ⟨fun _ => ⟨rfl, rfl⟩, rfl, rfl, rfl⟩

/-- C8 counterexample: a JSON body without an `events` field is answered with
HTTP 400, which is not an acknowledging (non-failure) response. -/
theorem C8_counterexample :
    (webhook (fun m => m) "2024-07-01" emptyDB Payload.noEventsField).statusCode = 400 ∧
    (400 : Nat) ≠ 200 :=
  ⟨rfl, by decide⟩

/-- C3 (confirmed): for a Registered sender the branches are evaluated
first-match-wins in the order schedule-change, confirmation, inquiry, AI
fallback; in particular the message `変更を確認`, which contains both a
change keyword and a confirmation keyword, takes the schedule-change branch
and inserts no Shift Confirmation row. -/
theorem C3_classification_order (ai : String → String) (weekStart : String)
    (db : DB) (uid nm : String) (hreg : db.users.lookup uid = some nm) :
    (∀ msg, is_schedule_change_request msg = true →
      (process_user_message ai weekStart db uid msg).2 = scheduleChangeReply nm msg ∧
      (process_user_message ai weekStart db uid msg).1.confRows = db.confRows ∧
      (process_user_message ai weekStart db uid msg).1.users = db.users) ∧
    (∀ msg, is_schedule_change_request msg = false →
      is_shift_confirmation msg = true →
      (process_user_message ai weekStart db uid msg).2 =
        (record_shift_confirmation (store_conversation db uid "user" msg)
          weekStart uid nm).2.2) ∧
    (∀ msg, is_schedule_change_request msg = false →
      is_shift_confirmation msg = false → is_shift_inquiry msg = true →
      (process_user_message ai weekStart db uid msg).2 = get_shift_response nm) ∧
    (∀ msg, is_schedule_change_request msg = false →
      is_shift_confirmation msg = false → is_shift_inquiry msg = false →
      (process_user_message ai weekStart db uid msg).2 = ai msg) ∧
    (is_schedule_change_request "変更を確認" = true ∧
     is_shift_confirmation "変更を確認" = true ∧
     (process_user_message ai weekStart db uid "変更を確認").2 =
       scheduleChangeReply nm "変更を確認" ∧
     (process_user_message ai weekStart db uid "変更を確認").1.confRows =
       db.confRows) := by
  have h1 : ∀ msg, is_schedule_change_request msg = true →
      (process_user_message ai weekStart db uid msg).2 = scheduleChangeReply nm msg ∧
      (process_user_message ai weekStart db uid msg).1.confRows = db.confRows ∧
      (process_user_message ai weekStart db uid msg).1.users = db.users := by
    intro msg h
    simp [process_user_message, hreg, h, store_conversation_confRows,
      store_conversation_users]
  refine ⟨h1, ?_, ?_, ?_, ?_⟩
  · intro msg hnc hc
    simp [process_user_message, hreg, hnc, hc]
  · intro msg hnc hcf hi
    simp [process_user_message, hreg, hnc, hcf, hi]
  · intro msg hnc hcf hni
    simp [process_user_message, hreg, hnc, hcf, hni]
  · have hkw1 : is_schedule_change_request "変更を確認" = true := by decide
    have hkw2 : is_shift_confirmation "変更を確認" = true := by decide
    exact ⟨hkw1, hkw2, (h1 _ hkw1).1, (h1 _ hkw1).2.1⟩

/-- Witness for C3_classification_order at a concrete registered user and the
overlapping-keyword message. -/
theorem C3_classification_order_witness :
    (process_user_message (fun m => m) "2024-07-01"
        ⟨[("U1", "田中太郎")], [], 1, [], 1⟩ "U1" "変更を確認").2 =
      scheduleChangeReply "田中太郎" "変更を確認" :=
  ((C3_classification_order (fun m => m) "2024-07-01"
      ⟨[("U1", "田中太郎")], [], 1, [], 1⟩ "U1" "田中太郎"
      (by decide)).2.2.2.2).2.2.1

theorem dropWhile_eq_nil_of_filter_nil {p : Char → Bool} {l : List Char}
    (h : (l.dropWhile p).filter (fun c => !p c) = []) : l.dropWhile p = [] := by
  induction l with
  | nil => rfl
  | cons c tl ih =>
    by_cases hc : p c = true
    · rw [List.dropWhile_cons, if_pos hc] at h ⊢
      exact ih h
    · rw [List.dropWhile_cons, if_neg hc] at h
      simp [List.filter_cons, hc] at h

theorem validate_formatted_ne_empty {name f : String}
    (h : validate_and_format_name name = (some f, none)) : f ≠ "" := by
  unfold validate_and_format_name at h
  by_cases h1 : name = "" ∨ (pyStrip name).length < 2
  · rw [if_pos h1] at h
    cases h
  · rw [if_neg h1] at h
    cases hAll : (pyStrip name).toList.all isAllowedNameChar with
    | false =>
      rw [hAll] at h
      simp at h
    | true =>
      rw [hAll] at h
      simp only [Bool.not_true, Bool.false_eq_true, if_false] at h
      by_cases h3 : (removeWhitespace (pyStrip name)).length > 20
      · rw [if_pos h3] at h
        cases h
      · rw [if_neg h3] at h
        have hf : f = removeWhitespace (pyStrip name) := by
          cases h
          rfl
        subst hf
        intro hempty
        have hlen2 : 2 ≤ (pyStrip name).length := by
          rcases Nat.lt_or_ge (pyStrip name).length 2 with hlt | hge
          · exact absurd (Or.inr hlt) h1
          · exact hge
        have hnil : ((pyStrip name).toList.filter (fun c => !c.isWhitespace)) = [] := by
          have : (removeWhitespace (pyStrip name)).data = ("" : String).data := by
            rw [hempty]
          simpa [removeWhitespace] using this
        have hstrip :
            (pyStrip name).toList =
              ((name.toList.dropWhile Char.isWhitespace).reverse.dropWhile
                Char.isWhitespace).reverse := rfl
        rw [hstrip, List.filter_reverse] at hnil
        have hdrop :
            (name.toList.dropWhile Char.isWhitespace).reverse.dropWhile
              Char.isWhitespace = [] :=
          dropWhile_eq_nil_of_filter_nil (List.reverse_eq_nil_iff.mp hnil)
        have hlen0 : (pyStrip name).length = 0 := by
          have htl : (pyStrip name).toList = [] := by
            rw [hstrip, hdrop]
            rfl
          have hld : (pyStrip name).length = (pyStrip name).toList.length := rfl
          rw [hld, htl]
          rfl
        omega

/-- C5 (amended): two name submissions of the same valid name from two
different unregistered user ids leave the Directory with exactly one entry
for that name — the first registrant's — and the second attempt gets the
name-taken reply without any Directory mutation.  (A second submission from
the same user id is routed through the Registered-sender classification
instead and does not produce the name-taken reply; see the counterexample.) -/
theorem C5_duplicate_name (ai : String → String) (weekStart : String) (db : DB)
    (uid1 uid2 msg f : String)
    (h1 : db.users.lookup uid1 = none)
    (h2 : db.users.lookup uid2 = none)
    (h12 : uid1 ≠ uid2)
    (hkw : asciiLower msg ∉ registration_keywords)
    (hlen : 2 ≤ msg.length)
    (hval : validate_and_format_name msg = (some f, none))
    (havail : ∀ p ∈ db.users, p.2 ≠ f) :
    (process_user_message ai weekStart
        (process_user_message ai weekStart db uid1 msg).1 uid2 msg).1.users =
      db.users ++ [(uid1, f)] ∧
    (process_user_message ai weekStart
        (process_user_message ai weekStart db uid1 msg).1 uid2 msg).2 =
      nameTakenReply msg ∧
    ((process_user_message ai weekStart
        (process_user_message ai weekStart db uid1 msg).1 uid2 msg).1.users.filter
      (fun p => p.2 == f)) = [(uid1, f)] := by
  have hfne : f ≠ "" := validate_formatted_ne_empty hval
  have hany1 : db.users.any (fun p => p.1 == uid1 || p.2 == f) = false := by
    apply List.any_eq_false.mpr
    intro p hp
    have hp1 : (p.1 == uid1) = false :=
      beq_eq_false_iff_ne.mpr (lookup_eq_none h1 p hp)
    have hp2 : (p.2 == f) = false := beq_eq_false_iff_ne.mpr (havail p hp)
    simp [hp1, hp2]
  have hrun1 :
      (process_user_message ai weekStart db uid1 msg).1.users =
        db.users ++ [(uid1, f)] := by
    simp [process_user_message, h1, hkw, hlen, hval, hfne, hany1,
      store_conversation_users]
  have key : ∀ db1 : DB, db1.users = db.users ++ [(uid1, f)] →
      (process_user_message ai weekStart db1 uid2 msg).1.users =
        db.users ++ [(uid1, f)] ∧
      (process_user_message ai weekStart db1 uid2 msg).2 = nameTakenReply msg ∧
      ((process_user_message ai weekStart db1 uid2 msg).1.users.filter
        (fun p => p.2 == f)) = [(uid1, f)] := by
    intro db1 hu1
    have hlook2 : List.lookup uid2 (db.users ++ [(uid1, f)]) = none := by
      rw [List.lookup_append, h2, Option.none_or, List.lookup_cons]
      have hne : (uid2 == uid1) = false := beq_eq_false_iff_ne.mpr (Ne.symm h12)
      simp [hne]
    have hany2 : ((db.users ++ [(uid1, f)]).any fun p => p.1 == uid2 || p.2 == f) = true := by
      apply List.any_eq_true.mpr
      refine ⟨(uid1, f), List.mem_append_right _ (List.mem_cons_self _ _), ?_⟩
      simp
    have husers : (process_user_message ai weekStart db1 uid2 msg).1.users =
        db.users ++ [(uid1, f)] := by
      simp [process_user_message, hu1, hlook2, hkw, hlen, hval, hfne, hany2,
        store_conversation_users]
    refine ⟨husers, ?_, ?_⟩
    · simp [process_user_message, hu1, hlook2, hkw, hlen, hval, hfne, hany2]
    · rw [husers, List.filter_append]
      have hnilf : db.users.filter (fun p => p.2 == f) = [] := by
        apply List.filter_eq_nil_iff.mpr
        intro p hp
        simp [beq_eq_false_iff_ne.mpr (havail p hp)]
      rw [hnilf]
      simp
  exact key (process_user_message ai weekStart db uid1 msg).1 hrun1

/-- Witness for C5_duplicate_name: concrete double registration of 田中太郎
from two user ids. -/
theorem C5_duplicate_name_witness :
    (process_user_message (fun m => m) "2024-07-01"
        (process_user_message (fun m => m) "2024-07-01" emptyDB "U1" "田中太郎").1
        "U2" "田中太郎").2 = nameTakenReply "田中太郎" :=
  (C5_duplicate_name (fun m => m) "2024-07-01" emptyDB "U1" "U2" "田中太郎" "田中太郎"
    (by decide) (by decide) (by decide) (by decide) (by decide) (by decide)
    (by decide)).2.1

/-- C5 counterexample: when the two attempts come from the same user id, the
second message is processed as a Registered sender (here falling through to
the AI fallback), so the name-taken error reply is not returned, contrary to
the claim's "same or different user ids". -/
theorem C5_counterexample :
    (process_user_message (fun _ => "AI応答") "2024-07-01"
        (process_user_message (fun _ => "AI応答") "2024-07-01" emptyDB "U1" "田中太郎").1
        "U1" "田中太郎").2 = "AI応答" ∧
    ("AI応答" : String) ≠ nameTakenReply "田中太郎" := by
  exact ⟨by decide, by decide⟩

theorem store_conversation_confCount (db : DB) (u r m uid w : String) :
    confirmedCount (store_conversation db u r m) uid w = confirmedCount db uid w := rfl

theorem record_already (db : DB) (w uid nm : String)
    (h : 1 ≤ confirmedCount db uid w) :
    record_shift_confirmation db w uid nm = (db, false, alreadyConfirmedMsg) := by
  unfold record_shift_confirmation
  rw [if_pos]
  apply List.any_eq_true.mpr
  have hne : db.confRows.filter (fun c =>
      c.user_id == uid && c.week_start == w && c.status == "confirmed") ≠ [] := by
    intro hnil
    rw [confirmedCount, hnil] at h
    simp at h
  obtain ⟨c, hc⟩ := List.exists_mem_of_ne_nil _ hne
  exact ⟨c, (List.mem_filter.mp hc).1, (List.mem_filter.mp hc).2⟩

theorem record_first (db : DB) (w uid nm : String)
    (h : confirmedCount db uid w = 0) :
    record_shift_confirmation db w uid nm =
      ({ db with
          confRows := db.confRows ++ [⟨db.nextConfId, uid, nm, w, "confirmed"⟩],
          nextConfId := db.nextConfId + 1 },
       true, confirmationRecordedMsg nm) := by
  unfold record_shift_confirmation
  rw [if_neg]
  intro hany
  obtain ⟨c, hcmem, hcp⟩ := List.any_eq_true.mp hany
  have hcf : c ∈ db.confRows.filter (fun c =>
      c.user_id == uid && c.week_start == w && c.status == "confirmed") :=
    List.mem_filter.mpr ⟨hcmem, hcp⟩
  rw [confirmedCount, List.length_eq_zero] at h
  rw [h] at hcf
  cases hcf

theorem count_after_insert (db : DB) (w uid nm : String)
    (h : confirmedCount db uid w = 0) :
    confirmedCount (record_shift_confirmation db w uid nm).1 uid w = 1 := by
  rw [record_first db w uid nm h]
  unfold confirmedCount at h ⊢
  rw [List.length_eq_zero] at h
  simp [List.filter_append, h]

theorem process_conf_first (ai : String → String) (w : String) (db : DB)
    (uid nm msg : String) (hreg : db.users.lookup uid = some nm)
    (hc : is_shift_confirmation msg = true)
    (hnc : is_schedule_change_request msg = false)
    (h0 : confirmedCount db uid w = 0) :
    (process_user_message ai w db uid msg).2 = confirmationRecordedMsg nm ∧
    confirmedCount (process_user_message ai w db uid msg).1 uid w = 1 ∧
    (process_user_message ai w db uid msg).1.users = db.users := by
  have hs0 : confirmedCount (store_conversation db uid "user" msg) uid w = 0 := by
    rw [store_conversation_confCount]
    exact h0
  have hrec := record_first (store_conversation db uid "user" msg) w uid nm hs0
  have hcnt := count_after_insert (store_conversation db uid "user" msg) w uid nm hs0
  refine ⟨?_, ?_, ?_⟩
  · simp [process_user_message, hreg, hnc, hc, hrec]
  · simp only [process_user_message, hreg, hnc, hc]
    simp only [Bool.false_eq_true, if_false, if_true, store_conversation_confCount]
    exact hcnt
  · simp only [process_user_message, hreg, hnc, hc]
    simp only [Bool.false_eq_true, if_false, if_true, store_conversation_users]
    rw [hrec]
    simp [store_conversation_users]

theorem process_conf_repeat (ai : String → String) (w : String) (db : DB)
    (uid nm msg : String) (hreg : db.users.lookup uid = some nm)
    (hc : is_shift_confirmation msg = true)
    (hnc : is_schedule_change_request msg = false)
    (h1 : 1 ≤ confirmedCount db uid w) :
    (process_user_message ai w db uid msg).2 = alreadyConfirmedMsg ∧
    confirmedCount (process_user_message ai w db uid msg).1 uid w =
      confirmedCount db uid w ∧
    (process_user_message ai w db uid msg).1.users = db.users := by
  have hs1 : 1 ≤ confirmedCount (store_conversation db uid "user" msg) uid w := by
    rw [store_conversation_confCount]
    exact h1
  have hrec := record_already (store_conversation db uid "user" msg) w uid nm hs1
  refine ⟨?_, ?_, ?_⟩
  · simp [process_user_message, hreg, hnc, hc, hrec]
  · simp only [process_user_message, hreg, hnc, hc]
    simp only [Bool.false_eq_true, if_false, if_true, store_conversation_confCount]
    rw [hrec]
    rw [store_conversation_confCount]
  · simp only [process_user_message, hreg, hnc, hc]
    simp only [Bool.false_eq_true, if_false, if_true, store_conversation_users]
    rw [hrec]
    simp [store_conversation_users]

theorem processList_conf_already (ai : String → String) (w uid nm : String)
    (msgs : List String) :
    ∀ db : DB, db.users.lookup uid = some nm →
      (∀ m ∈ msgs, is_shift_confirmation m = true ∧
        is_schedule_change_request m = false) →
      confirmedCount db uid w = 1 →
      confirmedCount (processList ai w db (msgs.map (fun m => (uid, m)))).1 uid w = 1 ∧
      ∀ r ∈ (processList ai w db (msgs.map (fun m => (uid, m)))).2,
        r = alreadyConfirmedMsg := by
  induction msgs with
  | nil =>
    intro db hreg hconf hcount
    exact ⟨hcount, by intro r hr; cases hr⟩
  | cons m rest ih =>
    intro db hreg hconf hcount
    have hm := hconf m (List.mem_cons_self _ _)
    have hstep := process_conf_repeat ai w db uid nm m hreg hm.1 hm.2
      (le_of_eq hcount.symm)
    have hreg' : (process_user_message ai w db uid m).1.users.lookup uid = some nm := by
      rw [hstep.2.2]
      exact hreg
    have hcount' : confirmedCount (process_user_message ai w db uid m).1 uid w = 1 := by
      rw [hstep.2.1]
      exact hcount
    have hrest := ih (process_user_message ai w db uid m).1 hreg'
      (fun x hx => hconf x (List.mem_cons_of_mem _ hx)) hcount'
    refine ⟨?_, ?_⟩
    · simpa [processList] using hrest.1
    · intro r hr
      simp only [List.map_cons, processList, List.mem_cons] at hr
      rcases hr with hr | hr
      · rw [hr]
        exact hstep.1
      · exact hrest.2 r hr

/-- C6 (confirmed): starting from a week with no confirmed Ledger row for the
user, a non-empty sequence of confirmation messages (each matching a
confirmation keyword and no schedule-change keyword) within the same week
leaves exactly one confirmed row for (user, week); the first message gets the
confirmation-recorded reply and every later one gets the already-confirmed
reply with no further insertion. -/
theorem C6_weekly_confirmation (ai : String → String) (weekStart : String)
    (db : DB) (uid nm : String) (msgs : List String)
    (hreg : db.users.lookup uid = some nm)
    (hconf : ∀ m ∈ msgs, is_shift_confirmation m = true ∧
      is_schedule_change_request m = false)
    (h0 : confirmedCount db uid weekStart = 0)
    (hne : msgs ≠ []) :
    confirmedCount
        (processList ai weekStart db (msgs.map (fun m => (uid, m)))).1
        uid weekStart = 1 ∧
    (processList ai weekStart db (msgs.map (fun m => (uid, m)))).2.head? =
      some (confirmationRecordedMsg nm) ∧
    ∀ r ∈ (processList ai weekStart db (msgs.map (fun m => (uid, m)))).2.tail,
      r = alreadyConfirmedMsg := by
  cases msgs with
  | nil => exact absurd rfl hne
  | cons m rest =>
    have hm := hconf m (List.mem_cons_self _ _)
    have hfirst := process_conf_first ai weekStart db uid nm m hreg hm.1 hm.2 h0
    have hreg' : (process_user_message ai weekStart db uid m).1.users.lookup uid =
        some nm := by
      rw [hfirst.2.2]
      exact hreg
    have hrest := processList_conf_already ai weekStart uid nm rest
      (process_user_message ai weekStart db uid m).1 hreg'
      (fun x hx => hconf x (List.mem_cons_of_mem _ hx)) hfirst.2.1
    refine ⟨?_, ?_, ?_⟩
    · simpa [processList] using hrest.1
    · simp only [List.map_cons, processList, List.head?]
      rw [hfirst.1]
    · intro r hr
      simp only [List.map_cons, processList, List.tail] at hr
      exact hrest.2 r hr

/-- Witness for C6_weekly_confirmation: two confirmations in one week from a
registered user yield exactly one confirmed Ledger row. -/
theorem C6_weekly_confirmation_witness :
    confirmedCount
      (processList (fun m => m) "2024-07-01" ⟨[("U1", "田中太郎")], [], 1, [], 1⟩
        (["確認しました", "了解"].map (fun m => ("U1", m)))).1
      "U1" "2024-07-01" = 1 :=
  (C6_weekly_confirmation (fun m => m) "2024-07-01"
    ⟨[("U1", "田中太郎")], [], 1, [], 1⟩ "U1" "田中太郎" ["確認しました", "了解"]
    (by decide) (by decide) (by decide) (by decide)).1

/-! Conversation pruning: the last-20 characterization (claim C7). -/

theorem lastN_length_le {α : Type} (n : Nat) (l : List α) :
    (lastN n l).length ≤ n := by
  simp only [lastN, List.length_drop]
  omega

theorem lastN_of_length_le {α : Type} {n : Nat} {l : List α} (h : l.length ≤ n) :
    lastN n l = l := by
  unfold lastN
  rw [Nat.sub_eq_zero_of_le h]
  exact List.drop_zero l

theorem lastN_append_lastN {α : Type} (n : Nat) (X Y : List α) :
    lastN n (lastN n X ++ Y) = lastN n (X ++ Y) := by
  unfold lastN
  have hk : X.length - n ≤ X.length := Nat.sub_le _ _
  rw [← List.drop_append_of_le_length hk, List.drop_drop]
  congr 1
  simp only [List.length_drop, List.length_append]
  omega

theorem filter_mem_lastN (n : Nat) {L : List ConvRow}
    (hsort : List.Pairwise (fun a b => a.id < b.id) L) :
    L.filter (fun r => decide (r.id ∈ lastN n (L.map (fun s => s.id)))) =
      lastN n L := by
  have hmap : lastN n (L.map (fun s => s.id)) = (lastN n L).map (fun s => s.id) := by
    unfold lastN
    rw [List.length_map, List.map_drop]
  have hsplit := List.take_append_drop (L.length - n) L
  have hsort2 : List.Pairwise (fun a b => a.id < b.id)
      (L.take (L.length - n) ++ L.drop (L.length - n)) := by
    rw [hsplit]
    exact hsort
  have hcross := (List.pairwise_append.mp hsort2).2.2
  have hlast : lastN n L = L.drop (L.length - n) := rfl
  have h1 : (L.take (L.length - n)).filter
      (fun r => decide (r.id ∈ lastN n (L.map (fun s => s.id)))) = [] := by
    apply List.filter_eq_nil_iff.mpr
    intro a ha
    simp only [decide_eq_true_eq, hmap, hlast]
    intro hmem
    obtain ⟨b, hb, hab⟩ := List.mem_map.mp hmem
    exact (Nat.ne_of_lt (hcross a ha b hb)) hab.symm
  have h2 : (L.drop (L.length - n)).filter
      (fun r => decide (r.id ∈ lastN n (L.map (fun s => s.id)))) =
      L.drop (L.length - n) := by
    apply List.filter_eq_self.mpr
    intro b hb
    simp only [decide_eq_true_eq, hmap, hlast]
    exact List.mem_map_of_mem _ hb
  have hstep1 : L.filter (fun r => decide (r.id ∈ lastN n (L.map (fun s => s.id)))) =
      (L.take (L.length - n) ++ L.drop (L.length - n)).filter
        (fun r => decide (r.id ∈ lastN n (L.map (fun s => s.id)))) := by
    rw [hsplit]
  rw [hstep1, List.filter_append, h1, h2, List.nil_append, hlast]

theorem convStep_filter_self (rows : List ConvRow) (next : Nat)
    (uid role msg : String)
    (hsort : List.Pairwise (fun a b => a.id < b.id) rows)
    (hbound : ∀ r ∈ rows, r.id < next) :
    (convStep rows next uid role msg).1.filter (fun r => r.user_id == uid) =
      lastN 20 ((rows ++ [(⟨next, uid, role, msg⟩ : ConvRow)]).filter
        (fun r => r.user_id == uid)) := by
  have hsortI : List.Pairwise (fun a b => a.id < b.id)
      (rows ++ [(⟨next, uid, role, msg⟩ : ConvRow)]) := by
    rw [List.pairwise_append]
    refine ⟨hsort, List.pairwise_singleton _ _, ?_⟩
    intro a ha b hb
    rw [List.mem_singleton] at hb
    subst hb
    exact hbound a ha
  unfold convStep
  rw [List.filter_filter]
  have hcomb : ∀ r ∈ rows ++ [(⟨next, uid, role, msg⟩ : ConvRow)],
      ((r.user_id == uid) &&
        (!(r.user_id == uid) ||
          decide (r.id ∈ keptIds (rows ++ [(⟨next, uid, role, msg⟩ : ConvRow)]) uid))) =
      (decide (r.id ∈ keptIds (rows ++ [(⟨next, uid, role, msg⟩ : ConvRow)]) uid) &&
        (r.user_id == uid)) := by
    intro r _
    cases hq : (r.user_id == uid) with
    | false => simp [hq]
    | true => simp [hq]
  rw [List.filter_congr hcomb, ← List.filter_filter]
  have hkept : keptIds (rows ++ [(⟨next, uid, role, msg⟩ : ConvRow)]) uid =
      lastN 20 (((rows ++ [(⟨next, uid, role, msg⟩ : ConvRow)]).filter
        (fun r => r.user_id == uid)).map (fun s => s.id)) := rfl
  rw [hkept]
  exact filter_mem_lastN 20
    (List.Pairwise.sublist (List.filter_sublist _) hsortI)

theorem convStep_filter_other (rows : List ConvRow) (next : Nat)
    (uid role msg u : String) (hu : u ≠ uid) :
    (convStep rows next uid role msg).1.filter (fun r => r.user_id == u) =
      rows.filter (fun r => r.user_id == u) := by
  unfold convStep
  rw [List.filter_filter]
  have hstep : ∀ r ∈ rows ++ [(⟨next, uid, role, msg⟩ : ConvRow)],
      ((r.user_id == u) &&
        (!(r.user_id == uid) ||
          decide (r.id ∈ keptIds (rows ++ [(⟨next, uid, role, msg⟩ : ConvRow)]) uid))) =
      (r.user_id == u) := by
    intro r _
    cases hq : (r.user_id == u) with
    | false => simp [hq]
    | true =>
      have : r.user_id = u := beq_iff_eq.mp hq
      have huid : (r.user_id == uid) = false :=
        beq_eq_false_iff_ne.mpr (by rw [this]; exact hu)
      simp [hq, huid]
  rw [List.filter_congr hstep, List.filter_append]
  have hnew : ([(⟨next, uid, role, msg⟩ : ConvRow)].filter
      (fun r => r.user_id == u)) = [] := by
    simp [List.filter_cons, beq_eq_false_iff_ne.mpr (Ne.symm hu)]
  rw [hnew, List.append_nil]

theorem convStep_sorted (rows : List ConvRow) (next : Nat) (uid role msg : String)
    (hsort : List.Pairwise (fun a b => a.id < b.id) rows)
    (hbound : ∀ r ∈ rows, r.id < next) :
    List.Pairwise (fun a b => a.id < b.id) (convStep rows next uid role msg).1 := by
  have hsortI : List.Pairwise (fun a b => a.id < b.id)
      (rows ++ [(⟨next, uid, role, msg⟩ : ConvRow)]) := by
    rw [List.pairwise_append]
    refine ⟨hsort, List.pairwise_singleton _ _, ?_⟩
    intro a ha b hb
    rw [List.mem_singleton] at hb
    subst hb
    exact hbound a ha
  exact List.Pairwise.sublist (List.filter_sublist _) hsortI

theorem convStep_bound (rows : List ConvRow) (next : Nat) (uid role msg : String)
    (hbound : ∀ r ∈ rows, r.id < next) :
    ∀ r ∈ (convStep rows next uid role msg).1,
      r.id < (convStep rows next uid role msg).2 := by
  intro r hr
  have hr2 : r ∈ rows ++ [(⟨next, uid, role, msg⟩ : ConvRow)] := List.mem_of_mem_filter hr
  rcases List.mem_append.mp hr2 with hm | hm
  · exact Nat.lt_succ_of_lt (hbound r hm)
  · rw [List.mem_singleton] at hm
    subst hm
    exact Nat.lt_succ_self _

theorem convStep_count (rows : List ConvRow) (next : Nat) (uid role msg : String)
    (hsort : List.Pairwise (fun a b => a.id < b.id) rows)
    (hbound : ∀ r ∈ rows, r.id < next)
    (hcnt : ∀ v, ((rows.filter (fun r => r.user_id == v)).length ≤ 20)) :
    ∀ v, (((convStep rows next uid role msg).1.filter
      (fun r => r.user_id == v)).length ≤ 20) := by
  intro v
  by_cases hv : v = uid
  · subst hv
    rw [convStep_filter_self rows next v role msg hsort hbound]
    exact lastN_length_le _ _
  · rw [convStep_filter_other rows next uid role msg v hv]
    exact hcnt v

theorem store_conversation_convRows (db : DB) (u r m : String) :
    (store_conversation db u r m).convRows =
      (convStep db.convRows db.nextConvId u r m).1 := rfl

theorem store_conversation_nextConvId (db : DB) (u r m : String) :
    (store_conversation db u r m).nextConvId =
      (convStep db.convRows db.nextConvId u r m).2 := rfl

theorem runStores_filter (ops : List (String × String × String)) :
    ∀ db : DB,
      List.Pairwise (fun a b => a.id < b.id) db.convRows →
      (∀ r ∈ db.convRows, r.id < db.nextConvId) →
      (∀ v, ((db.convRows.filter (fun r => r.user_id == v)).length ≤ 20)) →
      ∀ u, (runStores db ops).convRows.filter (fun r => r.user_id == u) =
        lastN 20 (db.convRows.filter (fun r => r.user_id == u) ++
          (allConvInserts db.nextConvId ops).filter (fun r => r.user_id == u)) := by
  induction ops with
  | nil =>
    intro db hsort hbound hcnt u
    have h0 : allConvInserts db.nextConvId [] = [] := rfl
    rw [show runStores db [] = db from rfl, h0, List.filter_nil, List.append_nil]
    exact (lastN_of_length_le (hcnt u)).symm
  | cons op rest ih =>
    intro db hsort hbound hcnt u
    obtain ⟨uid, role, msg⟩ := op
    have hsort' : List.Pairwise (fun a b => a.id < b.id)
        (store_conversation db uid role msg).convRows :=
      convStep_sorted db.convRows db.nextConvId uid role msg hsort hbound
    have hbound' : ∀ r ∈ (store_conversation db uid role msg).convRows,
        r.id < (store_conversation db uid role msg).nextConvId :=
      convStep_bound db.convRows db.nextConvId uid role msg hbound
    have hcnt' : ∀ v, (((store_conversation db uid role msg).convRows.filter
        (fun r => r.user_id == v)).length ≤ 20) :=
      convStep_count db.convRows db.nextConvId uid role msg hsort hbound hcnt
    have hIH := ih (store_conversation db uid role msg) hsort' hbound' hcnt' u
    have hrun : runStores db ((uid, role, msg) :: rest) =
        runStores (store_conversation db uid role msg) rest := rfl
    have hnext : (store_conversation db uid role msg).nextConvId =
        db.nextConvId + 1 := rfl
    have hinserts : allConvInserts db.nextConvId ((uid, role, msg) :: rest) =
        (⟨db.nextConvId, uid, role, msg⟩ : ConvRow) ::
          allConvInserts (db.nextConvId + 1) rest := rfl
    rw [hrun, hIH, hnext, hinserts]
    by_cases hu : u = uid
    · subst hu
      rw [store_conversation_convRows,
        convStep_filter_self db.convRows db.nextConvId u role msg hsort hbound,
        lastN_append_lastN]
      congr 1
      rw [List.filter_append, List.append_assoc]
      congr 1
      simp [List.filter_cons]
    · rw [store_conversation_convRows,
        convStep_filter_other db.convRows db.nextConvId uid role msg u hu]
      congr 2
      rw [List.filter_cons]
      simp [beq_eq_false_iff_ne.mpr (fun h => hu h.symm)]

theorem process_conv_proj (ai : String → String) (w : String) (db : DB)
    (uid msg : String) :
    ∃ resp : String,
      (process_user_message ai w db uid msg).1.convRows =
        (convStep (convStep db.convRows db.nextConvId uid "user" msg).1
          (convStep db.convRows db.nextConvId uid "user" msg).2
          uid "assistant" resp).1 ∧
      (process_user_message ai w db uid msg).1.nextConvId =
        (convStep (convStep db.convRows db.nextConvId uid "user" msg).1
          (convStep db.convRows db.nextConvId uid "user" msg).2
          uid "assistant" resp).2 := by
  unfold process_user_message
  cases hl : db.users.lookup uid with
  | some nm =>
    dsimp only
    by_cases h1 : is_schedule_change_request msg = true
    · rw [if_pos h1]
      exact ⟨scheduleChangeReply nm msg, rfl, rfl⟩
    · rw [if_neg h1]
      by_cases h2 : is_shift_confirmation msg = true
      · rw [if_pos h2]
        refine ⟨(record_shift_confirmation (store_conversation db uid "user" msg)
          w uid nm).2.2, ?_, ?_⟩
        · rw [store_conversation_convRows,
            (record_conv_users (store_conversation db uid "user" msg) w uid nm).1,
            (record_conv_users (store_conversation db uid "user" msg) w uid nm).2.1]
          rfl
        · rw [store_conversation_nextConvId,
            (record_conv_users (store_conversation db uid "user" msg) w uid nm).1,
            (record_conv_users (store_conversation db uid "user" msg) w uid nm).2.1]
          rfl
      · rw [if_neg h2]
        by_cases h3 : is_shift_inquiry msg = true
        · rw [if_pos h3]
          exact ⟨get_shift_response nm, rfl, rfl⟩
        · rw [if_neg h3]
          exact ⟨ai msg, rfl, rfl⟩
  | none =>
    dsimp only
    by_cases h1 : asciiLower msg ∈ registration_keywords
    · rw [if_pos h1]
      exact ⟨registrationInstructions, rfl, rfl⟩
    · rw [if_neg h1]
      by_cases h2 : 2 ≤ msg.length
      · rw [if_pos h2]
        rcases hv : validate_and_format_name msg with ⟨fo, eo⟩
        cases fo with
        | some f =>
          dsimp only
          by_cases hf : f = ""
          · rw [if_pos hf]
            exact ⟨invalidNameReply eo, rfl, rfl⟩
          · rw [if_neg hf]
            by_cases ha : db.users.any (fun p => p.1 == uid || p.2 == f) = true
            · rw [if_pos ha]
              exact ⟨nameTakenReply msg, rfl, rfl⟩
            · rw [if_neg ha]
              exact ⟨registrationSuccessReply f, rfl, rfl⟩
        | none =>
          dsimp only
          exact ⟨invalidNameReply eo, rfl, rfl⟩
      · rw [if_neg h2]
        exact ⟨shortMessagePrompt, rfl, rfl⟩

theorem process_conv_inv (ai : String → String) (w : String) (db : DB)
    (uid msg : String)
    (hsort : List.Pairwise (fun a b => a.id < b.id) db.convRows)
    (hbound : ∀ r ∈ db.convRows, r.id < db.nextConvId)
    (hcnt : ∀ v, ((db.convRows.filter (fun r => r.user_id == v)).length ≤ 20)) :
    List.Pairwise (fun a b => a.id < b.id)
      (process_user_message ai w db uid msg).1.convRows ∧
    (∀ r ∈ (process_user_message ai w db uid msg).1.convRows,
      r.id < (process_user_message ai w db uid msg).1.nextConvId) ∧
    (∀ v, (((process_user_message ai w db uid msg).1.convRows.filter
      (fun r => r.user_id == v)).length ≤ 20)) := by
  obtain ⟨resp, hc, hn⟩ := process_conv_proj ai w db uid msg
  rw [hc, hn]
  have h1s := convStep_sorted db.convRows db.nextConvId uid "user" msg hsort hbound
  have h1b := convStep_bound db.convRows db.nextConvId uid "user" msg hbound
  have h1c := convStep_count db.convRows db.nextConvId uid "user" msg hsort hbound hcnt
  exact ⟨convStep_sorted _ _ uid "assistant" resp h1s h1b,
         convStep_bound _ _ uid "assistant" resp h1b,
         convStep_count _ _ uid "assistant" resp h1s h1b h1c⟩

theorem processList_conv_inv (ai : String → String) (w : String)
    (xs : List (String × String)) :
    ∀ db : DB,
      List.Pairwise (fun a b => a.id < b.id) db.convRows →
      (∀ r ∈ db.convRows, r.id < db.nextConvId) →
      (∀ v, ((db.convRows.filter (fun r => r.user_id == v)).length ≤ 20)) →
      List.Pairwise (fun a b => a.id < b.id)
        (processList ai w db xs).1.convRows ∧
      (∀ r ∈ (processList ai w db xs).1.convRows,
        r.id < (processList ai w db xs).1.nextConvId) ∧
      (∀ v, (((processList ai w db xs).1.convRows.filter
        (fun r => r.user_id == v)).length ≤ 20)) := by
  induction xs with
  | nil =>
    intro db h1 h2 h3
    exact ⟨h1, h2, h3⟩
  | cons x rest ih =>
    intro db h1 h2 h3
    obtain ⟨u1, m1⟩ := x
    have hstep := process_conv_inv ai w db u1 m1 h1 h2 h3
    have hrest := ih (process_user_message ai w db u1 m1).1
      hstep.1 hstep.2.1 hstep.2.2
    simpa [processList] using hrest

/-- C7 (confirmed): starting from an empty database, after any sequence of
conversation inserts the Conversation Log holds, for every user id, exactly
the most recent (at most 20) of that user's inserted rows — the pruned rows
are always the oldest, recency being insertion order since the
`CURRENT_TIMESTAMP` column is nondecreasing with the AUTOINCREMENT id — and
in particular at most 20 rows per user survive any sequence of routed
message exchanges. -/
theorem C7_conversation_log (ops : List (String × String × String)) (u : String) :
    (runStores emptyDB ops).convRows.filter (fun r => r.user_id == u) =
      lastN 20 ((allConvInserts 1 ops).filter (fun r => r.user_id == u)) ∧
    ((runStores emptyDB ops).convRows.filter (fun r => r.user_id == u)).length ≤ 20 ∧
    ∀ (ai : String → String) (weekStart : String) (xs : List (String × String)),
      ((processList ai weekStart emptyDB xs).1.convRows.filter
        (fun r => r.user_id == u)).length ≤ 20 := by
  have hmain := runStores_filter ops emptyDB List.Pairwise.nil
    (by intro r hr; cases hr) (fun v => by simp [emptyDB]) u
  have he1 : emptyDB.convRows = ([] : List ConvRow) := rfl
  have he2 : emptyDB.nextConvId = 1 := rfl
  rw [he1, he2, List.filter_nil, List.nil_append] at hmain
  refine ⟨hmain, ?_, ?_⟩
  · rw [hmain]
    exact lastN_length_le _ _
  · intro ai weekStart xs
    exact (processList_conv_inv ai weekStart xs emptyDB List.Pairwise.nil
      (by intro r hr; cases hr) (fun v => by simp [emptyDB])).2.2 u

end ShiftApp
